import Mathlib

/-!
Package terror: a traced error wrapper

A shallow embedding of `error.go` (package `terror`): the `TracedError`
value, its constructors `New`, `Newf`, `Wrap`, `Wrapf`, the package variable
`Depth` with `Init`, the stack capture `stack`, and the methods `Error`,
`Unwrap` and `Trace`.

Conventions of the embedding

* A Go `error` interface value is a term of `Error`; the nil interface is
  `Error.nil`.  A `*TracedError` is an `Option TracedError`, `none` being the
  nil pointer.  A pointer carries the address it was allocated at, so that
  Go's `==` on interface values is equality of terms.
* A run-time panic is the `Except.error` result.
* What the Go runtime and the `fmt` package supply (the call stack seen by
  `runtime.Callers`, the address a composite literal is allocated at, symbol
  resolution of a program counter, the text produced by a format template)
  is passed in explicitly, and so is the largest slice length that `make`
  can allocate.
-/

namespace Terror

/-! ## Data model -/

/-- Run-time panics that the code of the package can raise. -/
inductive Panic where
  /-- Raised by `make([]uintptr, n)` when `n` is negative or too large
  ("makeslice: len out of range"). -/
  | makesliceLenOutOfRange
  /-- Raised by a field access through a nil pointer. -/
  | nilDereference
deriving DecidableEq, Repr

/-- Values of the Go interface type `error`.

* `nil` is the nil interface value ("no error").
* `foreign addr text` is an error that is not a `*TracedError`, such as the
  result of `errors.New` or `fmt.Errorf`: a pointer allocated at `addr` whose
  `Error()` method returns `text`.
* `nilTraced` is the nil `*TracedError` stored in an interface (an interface
  value that is itself not nil).
* `traced addr Err Message stack` is a non-nil `*TracedError` allocated at
  `addr` with the three fields of the struct. -/
inductive Error where
  | nil
  | foreign (addr : Nat) (text : String)
  | nilTraced
  | traced (addr : Nat) (Err : Error) (Message : String) (stack : List Nat)
deriving DecidableEq, Repr

/-- The struct `TracedError`, together with the address it lives at
(`error.go`, lines 24-28).  `stack` holds `uintptr` program counters. -/
structure TracedError where
  addr : Nat
  Err : Error
  Message : String
  stack : List Nat
deriving DecidableEq, Repr

/-- Conversion of a `*TracedError` to the interface type `error`, as happens
when a constructor result is passed on as an `error`.  The nil pointer becomes
a non-nil interface value. -/
def toError : Option TracedError → Error
  | none => Error.nilTraced
  | some t => Error.traced t.addr t.Err t.Message t.stack

/-- A resolved stack frame: the fields of `runtime.Frame` that `Trace` prints. -/
structure Frame where
  Function : String
  File : String
  Line : Int
deriving DecidableEq, Repr

/-- The zero `runtime.Frame`, which `Frames.Next` returns when no caller is left. -/
def Frame.zero : Frame := ⟨"", "", 0⟩

/-- Arguments of a format call (`args ...any`). -/
inductive Any where
  | int (i : Int)
  | str (s : String)
  | err (e : Error)
deriving DecidableEq, Repr

/-- What the Go standard library supplies to the package.

* `Sprintf format args` is the text of `fmt.Sprintf(format, args...)`.
* `ErrorfText format args` is the text returned by the `Error()` method of
  `fmt.Errorf(format, args...)`.
* `funcInfo pc` is the frame that `runtime.CallersFrames` resolves the program
  counter `pc` to (one frame for each captured program counter).
* `maxSliceLen` is the largest length `n` for which `make([]uintptr, n)`
  returns a slice.  The runtime function `makeslice` panics with "len out of
  range" when `n < 0`, when the byte size `8 * n` overflows a `uintptr`, or
  when that size exceeds the allocator limit `maxAlloc`; so `maxSliceLen` is
  at most `maxAlloc / 8` (2^45 on linux/amd64), and `8 * maxSliceLen` fits 64
  bits.  A machine with less memory than `maxAlloc` has a smaller
  `maxSliceLen`; the model reports every failed `make` as the same panic. -/
structure Runtime where
  Sprintf : String → List Any → String
  ErrorfText : String → List Any → String
  funcInfo : Nat → Frame
  maxSliceLen : Nat
  maxSliceLen_lt : maxSliceLen * 8 < 2 ^ 64

/-- The package-level state: `var Depth = 32` (`error.go`, line 9). -/
structure Pkg where
  Depth : Int
deriving DecidableEq, Repr

/-- The state of the package before any call of `Init`. -/
def Pkg.initial : Pkg := ⟨32⟩

/-- Sets the package variable: `func Init(depth int)  Depth = depth`
(`error.go`, lines 12-14). -/
def Init (depth : Int) (_s : Pkg) : Pkg := ⟨depth⟩

/-! ## Stack capture -/

/-- Stack capture, `func stack() []uintptr` (`error.go`, lines 17-21).

`callStack` lists the program counters of the calling goroutine at the moment
`runtime.Callers` runs, innermost first: entry 0 is `runtime.Callers` itself,
entry 1 is `stack`, entry 2 the constructor and entry 3 the constructor's
caller.  `make([]uintptr, Depth)` panics for a negative length and for a
length above `maxSliceLen`; `runtime.Callers(3, pc)` skips three entries and
fills at most `len(pc)` entries, returning how many it wrote; the result is
`pc[:n]`. -/
def stack (rt : Runtime) (s : Pkg) (callStack : List Nat) : Except Panic (List Nat) :=
  if s.Depth < 0 ∨ (rt.maxSliceLen : Int) < s.Depth then
    Except.error Panic.makesliceLenOutOfRange
  else
    Except.ok ((callStack.drop 3).take s.Depth.toNat)

/-! ## Constructors -/

/-- Constructor `func New(err error) *TracedError` (`error.go`, lines 31-41). -/
def New (rt : Runtime) (s : Pkg) (callStack : List Nat) (addr : Nat) (err : Error) :
    Except Panic (Option TracedError) :=
  if err = Error.nil then
    Except.ok none
  else
    match stack rt s callStack with
    | Except.error p => Except.error p
    | Except.ok st => Except.ok (some { addr := addr, Err := err, Message := "", stack := st })

/-- Constructor `func Newf(format string, args ...any) *TracedError`
(`error.go`, lines 44-49).  `fmt.Errorf` allocates its result at `eaddr`. -/
def Newf (rt : Runtime) (s : Pkg) (callStack : List Nat) (eaddr addr : Nat)
    (format : String) (args : List Any) : Except Panic (Option TracedError) :=
  let e := Error.foreign eaddr (rt.ErrorfText format args)
  match stack rt s callStack with
  | Except.error p => Except.error p
  | Except.ok st => Except.ok (some { addr := addr, Err := e, Message := "", stack := st })

/-- Constructor `func Wrap(err error, msg string) *TracedError`
(`error.go`, lines 52-63). -/
def Wrap (rt : Runtime) (s : Pkg) (callStack : List Nat) (addr : Nat) (err : Error) (msg : String) :
    Except Panic (Option TracedError) :=
  if err = Error.nil then
    Except.ok none
  else
    match stack rt s callStack with
    | Except.error p => Except.error p
    | Except.ok st => Except.ok (some { addr := addr, Err := err, Message := msg, stack := st })

/-- Constructor `func Wrapf(err error, format string, args ...any) *TracedError`
(`error.go`, lines 66-77).  The guard is `if err != nil  return nil`, as in
the source. -/
def Wrapf (rt : Runtime) (s : Pkg) (callStack : List Nat) (addr : Nat) (err : Error)
    (format : String) (args : List Any) : Except Panic (Option TracedError) :=
  if err ≠ Error.nil then
    Except.ok none
  else
    let msg := rt.Sprintf format args
    match stack rt s callStack with
    | Except.error p => Except.error p
    | Except.ok st => Except.ok (some { addr := addr, Err := err, Message := msg, stack := st })

/-! ## Methods -/

/-- A `strings.Builder`: the chunks written so far, oldest first. -/
abbrev Builder := List String

/-- One write to the builder (`fmt.Fprintf(&b, ...)`, `fmt.Fprint(&b, ...)`). -/
def Builder.write (b : Builder) (chunk : String) : Builder := b ++ [chunk]

/-- The accumulated text, `b.String()`. -/
def Builder.String (b : Builder) : String := String.join b

/-- The body of `Error()` after the nil check (`error.go`, lines 84-89), with
the text that `fmt.Fprint(&b, t.Err)` writes given as `errText`. -/
def errorBody (Message : String) (errText : String) : String :=
  let b : Builder := []
  let b := if Message ≠ "" then b.write (Message ++ ": ") else b
  let b := b.write errText
  b.String

/-- The text `fmt.Fprint` writes for an operand of type `error`: `<nil>` for
the nil interface, otherwise the result of the operand's `Error()` method.
For a `*TracedError` operand that method is `TracedError.Error` below. -/
def describe : Error → String
  | Error.nil => "<nil>"
  | Error.foreign _ text => text
  | Error.nilTraced => ""
  | Error.traced _ Err Message _ => errorBody Message (describe Err)

/-- Method `func (t *TracedError) Error() string` (`error.go`, lines 80-90). -/
def TracedError.Error (t : Option TracedError) : String :=
  match t with
  | none => ""
  | some t => errorBody t.Message (describe t.Err)

/-- Method `func (t *TracedError) Unwrap() error` (`error.go`, lines 93-95):
`return t.Err`, a field access through the receiver. -/
def TracedError.Unwrap (t : Option TracedError) : Except Panic Terror.Error :=
  match t with
  | none => Except.error Panic.nilDereference
  | some t => Except.ok t.Err

/-- The text of one frame, `fmt.Fprintf(&b, "%s\n\t%s:%d\n", f.Function, f.File, f.Line)`. -/
def Frame.render (f : Frame) : String :=
  f.Function ++ "\n\t" ++ f.File ++ ":" ++ toString f.Line ++ "\n"

/-- The loop of `Trace` (`error.go`, lines 104-110) over the program counters
still held by the `runtime.Frames` iterator.

`frames.Next()` on an exhausted iterator returns the zero frame and
`more = false`; otherwise it returns the frame of the next program counter
and `more` tells whether another one is left.  The loop body writes the frame
first and tests `nxt` afterwards. -/
def Trace.loop (rt : Runtime) : List Nat → Builder → Builder
  | [], b => b.write Frame.zero.render
  | pc :: rest, b =>
    let b := b.write (rt.funcInfo pc).render
    if rest.isEmpty then b else Trace.loop rt rest b

/-- The chunks `Trace` writes for a non-nil receiver, one per rendered frame. -/
def TracedError.traceChunks (rt : Runtime) (t : TracedError) : Builder :=
  Trace.loop rt t.stack []

/-- Method `func (t *TracedError) Trace() string` (`error.go`, lines 98-111). -/
def TracedError.Trace (rt : Runtime) (t : Option TracedError) : String :=
  match t with
  | none => ""
  | some t => (TracedError.traceChunks rt t).String

/-! ## The chain-membership test of the standard library -/

/-- The loop of `errors.Is` (Go standard library, `errors/wrap.go`): compare
the current error with the target; if they differ, follow `Unwrap()`.  A
`foreign` error is a leaf of the chain as far as this package is concerned;
`Unwrap` on a nil `*TracedError` dereferences nil. -/
def errorsIs.loop (target : Error) : Error → Except Panic Bool
  | Error.nil => Except.ok (decide (Error.nil = target))
  | Error.foreign a text => Except.ok (decide (Error.foreign a text = target))
  | Error.nilTraced =>
    if Error.nilTraced = target then Except.ok true
    else Except.error Panic.nilDereference
  | Error.traced a Err Message st =>
    if Error.traced a Err Message st = target then Except.ok true
    else if Err = Error.nil then Except.ok false
    else errorsIs.loop target Err

/-- The standard library function `errors.Is(err, target)`. -/
def errorsIs (err target : Error) : Except Panic Bool :=
  if err = Error.nil ∨ target = Error.nil then
    Except.ok (decide (err = target))
  else
    errorsIs.loop target err

/-- One wrapping layer of a call chain: a call of `New`, or a call of `Wrap`
with a message, each with its own call stack and allocation address. -/
inductive Layer where
  | new (callStack : List Nat) (addr : Nat)
  | wrap (msg : String) (callStack : List Nat) (addr : Nat)
deriving DecidableEq, Repr

/-- Runs one layer on an error. -/
def Layer.run (rt : Runtime) (s : Pkg) (l : Layer) (err : Error) : Except Panic (Option TracedError) :=
  match l with
  | Layer.new cs addr => New rt s cs addr err
  | Layer.wrap msg cs addr => Wrap rt s cs addr err msg

/-- Passes an error through a list of layers, innermost layer first; each
result is handed to the next layer as an `error`. -/
def nest (rt : Runtime) (s : Pkg) : List Layer → Error → Except Panic Error
  | [], err => Except.ok err
  | l :: ls, err =>
    match l.run rt s err with
    | Except.error p => Except.error p
    | Except.ok t => nest rt s ls (toError t)

/-- A call of one of the four constructors, with the arguments that are not
supplied by the runtime. -/
inductive Call where
  | New (err : Error)
  | Newf (eaddr : Nat) (format : String) (args : List Any)
  | Wrap (err : Error) (msg : String)
  | Wrapf (err : Error) (format : String) (args : List Any)
deriving DecidableEq, Repr

/-- Runs a constructor call in package state `s`. -/
def Call.run (rt : Runtime) (s : Pkg) (callStack : List Nat) (addr : Nat) :
    Call → Except Panic (Option TracedError)
  | Call.New err => Terror.New rt s callStack addr err
  | Call.Newf eaddr format args => Terror.Newf rt s callStack eaddr addr format args
  | Call.Wrap err msg => Terror.Wrap rt s callStack addr err msg
  | Call.Wrapf err format args => Terror.Wrapf rt s callStack addr err format args

/-! ## Sample values -/

/-- The sentinel of the test file, `errors.New("error: One")`. -/
def ErrExampleOne : Error := Error.foreign 1 "error: One"

/-- A small formatter for sample values: the verb `%d` with an integer
argument and the verb `%s` with a string argument; every other character is
copied. -/
def sampleFormat : List Char → List Any → List Char
  | '%' :: 'd' :: cs, Any.int i :: as => (toString i).data ++ sampleFormat cs as
  | '%' :: 's' :: cs, Any.str x :: as => x.data ++ sampleFormat cs as
  | c :: cs, as => c :: sampleFormat cs as
  | [], _ => []

/-- A sample runtime: formatting by `sampleFormat`, program counter `pc`
resolves to function `f`, file `a.go`, line `pc`, and the largest slice
length is that of linux/amd64. -/
def sampleRuntime : Runtime :=
  { Sprintf := fun format args => String.mk (sampleFormat format.data args)
    ErrorfText := fun format args => String.mk (sampleFormat format.data args)
    funcInfo := fun pc => ⟨"f", "a.go", pc⟩
    maxSliceLen := 2 ^ 45
    maxSliceLen_lt := by decide }

/-- A sample call stack: `runtime.Callers`, `stack`, the constructor, and two callers. -/
def sampleCallStack : List Nat := [10, 11, 12, 13, 14]

/-- A sample call stack deeper than the default depth: program counters 0 to 39. -/
def deepCallStack : List Nat := List.range 40

/-- The layers of successive `Wrap` calls, innermost first, each with its
message, call stack and allocation address. -/
def wrapLayers (calls : List (String × List Nat × Nat)) : List Layer :=
  calls.map fun c => Layer.wrap c.1 c.2.1 c.2.2

/-- The text the specification gives for a chain of messages around a
description `d`, the messages listed innermost first: each message is put in
front, followed by `": "`. -/
def chainText (msgs : List String) (d : String) : String :=
  msgs.foldl (fun acc m => m ++ ": " ++ acc) d

/-! ## Auxiliary lemmas -/

theorem stack_ok (rt : Runtime) (s : Pkg) (cs : List Nat) (h : 0 ≤ s.Depth)
    (hmax : s.Depth ≤ rt.maxSliceLen) :
    stack rt s cs = Except.ok ((cs.drop 3).take s.Depth.toNat) := by
  unfold stack
  rw [if_neg (by omega)]

theorem stack_depth_range (rt : Runtime) (s : Pkg) (cs st : List Nat)
    (h : stack rt s cs = Except.ok st) :
    0 ≤ s.Depth ∧ s.Depth ≤ rt.maxSliceLen := by
  unfold stack at h
  by_contra hneg
  rw [if_pos (by omega)] at h
  cases h

theorem stack_depth_nonneg (rt : Runtime) (s : Pkg) (cs st : List Nat)
    (h : stack rt s cs = Except.ok st) : 0 ≤ s.Depth :=
  (stack_depth_range rt s cs st h).1

theorem stack_length_le (rt : Runtime) (s : Pkg) (cs st : List Nat)
    (h : stack rt s cs = Except.ok st) :
    st.length ≤ s.Depth.toNat := by
  have hd := stack_depth_range rt s cs st h
  rw [stack_ok rt s cs hd.1 hd.2] at h
  cases h
  simp [List.length_take]

theorem join_singleton (a : String) : String.join [a] = a := by
  simp [String.join]

theorem join_pair (a b : String) : String.join [a, b] = a ++ b := by
  simp [String.join]

theorem errorBody_nonempty (m d : String) (h : m ≠ "") :
    errorBody m d = m ++ ": " ++ d := by
  simp [errorBody, h, Builder.write, Builder.String, join_pair]

theorem errorBody_empty (d : String) : errorBody "" d = d := by
  simp [errorBody, Builder.write, Builder.String, join_singleton]

theorem traceLoop_length (rt : Runtime) (st : List Nat) (b : Builder) :
    (Trace.loop rt st b).length = b.length + max st.length 1 := by
  induction st generalizing b with
  | nil => simp [Trace.loop, Builder.write]
  | cons pc rest ih =>
    unfold Trace.loop
    cases rest with
    | nil => simp [Builder.write]
    | cons pc2 rest2 =>
      simp only [List.isEmpty_cons, Bool.false_eq_true, if_false]
      rw [ih]
      simp [Builder.write]
      omega

theorem errorsIs_loop_self (e : Error) : errorsIs.loop e e = Except.ok true := by
  cases e <;> simp [errorsIs.loop]

theorem Layer_run_ok (rt : Runtime) (s : Pkg) (l : Layer) (err : Error)
    (hd : 0 ≤ s.Depth) (hmax : s.Depth ≤ rt.maxSliceLen) (he : err ≠ Error.nil) :
    ∃ t, l.run rt s err = Except.ok (some t) ∧ t.Err = err := by
  cases l with
  | new cs addr =>
    exact ⟨⟨addr, err, "", (cs.drop 3).take s.Depth.toNat⟩,
      by simp [Layer.run, New, he, stack_ok rt s cs hd hmax], rfl⟩
  | wrap msg cs addr =>
    exact ⟨⟨addr, err, msg, (cs.drop 3).take s.Depth.toNat⟩,
      by simp [Layer.run, Wrap, he, stack_ok rt s cs hd hmax], rfl⟩

theorem errorsIs_loop_traced (target : Error) (t : TracedError)
    (he : t.Err ≠ Error.nil) (h : errorsIs.loop target t.Err = Except.ok true) :
    errorsIs.loop target (toError (some t)) = Except.ok true := by
  simp [toError, errorsIs.loop, he, h]

theorem nest_is (rt : Runtime) (s : Pkg) (target : Error) (hd : 0 ≤ s.Depth) (hmax : s.Depth ≤ rt.maxSliceLen) (ls : List Layer) :
    ∀ err : Error, err ≠ Error.nil → errorsIs.loop target err = Except.ok true →
      ∃ x, nest rt s ls err = Except.ok x ∧ x ≠ Error.nil ∧
        errorsIs.loop target x = Except.ok true := by
  induction ls with
  | nil => intro err he h; exact ⟨err, rfl, he, h⟩
  | cons l ls ih =>
    intro err he h
    obtain ⟨t, hrun, hErr⟩ := Layer_run_ok rt s l err hd hmax he
    have hne : toError (some t) ≠ Error.nil := by simp [toError]
    have hloop : errorsIs.loop target (toError (some t)) = Except.ok true :=
      errorsIs_loop_traced target t (hErr ▸ he) (hErr ▸ h)
    obtain ⟨x, hx, hxne, hxl⟩ := ih (toError (some t)) hne hloop
    exact ⟨x, by simp [nest, hrun, hx], hxne, hxl⟩

theorem traceLoop_cons (rt : Runtime) (rest : List Nat) :
    ∀ (pc : Nat) (b : Builder),
      Trace.loop rt (pc :: rest) b
        = b ++ (pc :: rest).map (fun q => (rt.funcInfo q).render) := by
  induction rest with
  | nil => intro pc b; simp [Trace.loop, Builder.write]
  | cons pc2 rest2 ih =>
    intro pc b
    unfold Trace.loop
    simp only [List.isEmpty_cons, Bool.false_eq_true, if_false]
    rw [ih]
    simp [Builder.write]

theorem join_cons (a : String) (l : List String) :
    String.join (a :: l) = a ++ String.join l := by
  apply String.ext
  simp [String.data_join]

theorem render_ne_empty (f : Frame) : f.render ≠ "" := by
  intro h
  have hl := congrArg String.length h
  simp only [Frame.render, String.length_append] at hl
  have h1 : "\n".length = 1 := by decide
  have h0 : "".length = 0 := by decide
  omega

theorem describe_toError (t : TracedError) :
    describe (toError (some t)) = TracedError.Error (some t) := rfl

theorem Call_run_stack (rt : Runtime) (s : Pkg) (cs : List Nat) (addr : Nat) (c : Call)
    (t : TracedError) (h : c.run rt s cs addr = Except.ok (some t)) :
    stack rt s cs = Except.ok t.stack := by
  cases c with
  | New err =>
    simp only [Call.run, New] at h
    split at h
    · cases h
    · split at h
      · cases h
      · next st hs => cases h; exact hs
  | Newf eaddr format args =>
    simp only [Call.run, Newf] at h
    split at h
    · cases h
    · next st hs => cases h; exact hs
  | Wrap err msg =>
    simp only [Call.run, Wrap] at h
    split at h
    · cases h
    · split at h
      · cases h
      · next st hs => cases h; exact hs
  | Wrapf err format args =>
    simp only [Call.run, Wrapf] at h
    split at h
    · cases h
    · split at h
      · cases h
      · next st hs => cases h; exact hs

theorem nest_wrapLayers (rt : Runtime) (s : Pkg) (hd : 0 ≤ s.Depth) (hmax : s.Depth ≤ rt.maxSliceLen) (calls : List (String × List Nat × Nat)) :
    ∀ err : Error, err ≠ Error.nil → (∀ c ∈ calls, c.1 ≠ "") →
      ∃ x, nest rt s (wrapLayers calls) err = Except.ok x ∧ x ≠ Error.nil ∧
        describe x = chainText (calls.map fun c => c.1) (describe err) ∧
        (calls ≠ [] → ∃ t, x = toError (some t)) := by
  induction calls with
  | nil =>
    intro err he _
    exact ⟨err, rfl, he, rfl, fun h => absurd rfl h⟩
  | cons c calls ih =>
    intro err he hm
    have hc : c.1 ≠ "" := hm c (List.mem_cons_self _ _)
    let t : TracedError := ⟨c.2.2, err, c.1, (c.2.1.drop 3).take s.Depth.toNat⟩
    have hrun : Layer.run rt s (Layer.wrap c.1 c.2.1 c.2.2) err = Except.ok (some t) := by
      simp [Layer.run, Wrap, he, stack_ok rt s c.2.1 hd hmax, t]
    have hne : toError (some t) ≠ Error.nil := by simp [toError]
    have hdesc : describe (toError (some t)) = c.1 ++ ": " ++ describe err := by
      simp [toError, describe, errorBody_nonempty, hc, t]
    obtain ⟨x, hx, hxne, hxd, hxt⟩ :=
      ih (toError (some t)) hne (fun c2 h2 => hm c2 (List.mem_cons_of_mem _ h2))
    refine ⟨x, ?_, hxne, ?_, ?_⟩
    · simp only [wrapLayers, List.map_cons, nest] at hx ⊢
      rw [hrun]
      exact hx
    · rw [hxd, hdesc]
      simp [chainText]
    · intro _
      cases calls with
      | nil =>
        simp only [wrapLayers, List.map_nil, nest] at hx
        cases hx
        exact ⟨t, rfl⟩
      | cons c2 calls2 => exact hxt (by simp)

/-! ## Claims -/

/-- C1: for every failure `e` other than nil (the package depth being one
that `make` accepts, as the default 32 is), `New(e)` returns a non-nil `*TracedError`
and `Unwrap` of that result returns exactly `e`. -/
theorem New_unwrap_identity (rt : Runtime) (s : Pkg) (cs : List Nat) (addr : Nat) (e : Error)
    (hd : 0 ≤ s.Depth) (hmax : s.Depth ≤ rt.maxSliceLen) (he : e ≠ Error.nil) :
    ∃ t, New rt s cs addr e = Except.ok (some t) ∧
      TracedError.Unwrap (some t) = Except.ok e := by
  refine ⟨{ addr := addr, Err := e, Message := "", stack := (cs.drop 3).take s.Depth.toNat }, ?_, rfl⟩
  simp [New, he, stack_ok rt s cs hd hmax]

theorem New_unwrap_identity_witness :
    (0 : Int) ≤ Pkg.initial.Depth ∧ ErrExampleOne ≠ Error.nil ∧
      ∃ t, New sampleRuntime Pkg.initial sampleCallStack 100 ErrExampleOne = Except.ok (some t) ∧
        TracedError.Unwrap (some t) = Except.ok ErrExampleOne :=
  ⟨by decide, by decide,
    New_unwrap_identity sampleRuntime Pkg.initial sampleCallStack 100 ErrExampleOne
      (by decide) (by decide) (by decide)⟩

/-- C2: for every sentinel `e` other than nil, `errors.Is(New(e), e)` returns
true, and `errors.Is(x, e)` returns true for every `x` obtained from `e`
through any finite list of `New`/`Wrap` layers with arbitrary messages (the
package depth being one that `make` accepts). -/
theorem errorsIs_through_layers (rt : Runtime) (s : Pkg) (e : Error) (cs : List Nat) (addr : Nat)
    (ls : List Layer) (hd : 0 ≤ s.Depth) (hmax : s.Depth ≤ rt.maxSliceLen) (he : e ≠ Error.nil) :
    (∃ t, New rt s cs addr e = Except.ok (some t) ∧
        errorsIs (toError (some t)) e = Except.ok true) ∧
    (∃ x, nest rt s ls e = Except.ok x ∧ errorsIs x e = Except.ok true) := by
  constructor
  · obtain ⟨t, hrun, hErr⟩ := Layer_run_ok rt s (Layer.new cs addr) e hd hmax he
    refine ⟨t, hrun, ?_⟩
    have hl := errorsIs_loop_traced e t (hErr ▸ he) (hErr ▸ errorsIs_loop_self e)
    have hne : toError (some t) ≠ Error.nil := by simp [toError]
    simp [errorsIs, hne, he, hl]
  · obtain ⟨x, hx, hxne, hxl⟩ := nest_is rt s e hd hmax ls e he (errorsIs_loop_self e)
    exact ⟨x, hx, by simp [errorsIs, hxne, he, hxl]⟩

theorem errorsIs_through_layers_witness :
    (0 : Int) ≤ Pkg.initial.Depth ∧ ErrExampleOne ≠ Error.nil ∧
    (∃ t, New sampleRuntime Pkg.initial sampleCallStack 100 ErrExampleOne = Except.ok (some t) ∧
        errorsIs (toError (some t)) ErrExampleOne = Except.ok true) ∧
    (∃ x, nest sampleRuntime Pkg.initial
        [Layer.wrap "read" sampleCallStack 101, Layer.new sampleCallStack 102,
          Layer.wrap "" sampleCallStack 103] ErrExampleOne = Except.ok x ∧
        errorsIs x ErrExampleOne = Except.ok true) :=
  ⟨by decide, by decide,
    errorsIs_through_layers sampleRuntime Pkg.initial ErrExampleOne sampleCallStack 100 _
      (by decide) (by decide) (by decide)⟩

/-- C3 (the code departs from the claim): on the non-nil error `ErrExampleOne`
`Wrapf` returns the nil pointer, while `Wrap` on the same error returns a
wrapper; on the nil error `Wrapf` returns a non-nil wrapper around nil. -/
theorem Wrapf_absence_rule_inverted :
    ErrExampleOne ≠ Error.nil ∧
    Wrapf sampleRuntime Pkg.initial sampleCallStack 100 ErrExampleOne "ctx %d" [Any.int 1]
      = Except.ok none ∧
    Wrap sampleRuntime Pkg.initial sampleCallStack 100 ErrExampleOne "ctx 1"
      = Except.ok (some ⟨100, ErrExampleOne, "ctx 1", [13, 14]⟩) ∧
    Wrapf sampleRuntime Pkg.initial sampleCallStack 100 Error.nil "ctx %d" [Any.int 1]
      = Except.ok (some ⟨100, Error.nil, "ctx 1", [13, 14]⟩) :=
  ⟨by decide, rfl, rfl, rfl⟩

/-- C4: `New(nil)` is nil, and `Wrap(nil, m)` is nil for every message `m`
(in every package state). -/
theorem New_Wrap_nil (rt : Runtime) (s : Pkg) (cs : List Nat) (addr : Nat) :
    New rt s cs addr Error.nil = Except.ok none ∧
    ∀ m : String, Wrap rt s cs addr Error.nil m = Except.ok none := by
  constructor
  · simp [New]
  · intro m
    simp [Wrap]

/-- C5 as stated fails for the empty message: `Error(Wrap(e, ""))` is the
description of `e` alone, without the separator. -/
theorem Wrap_error_empty_message_counterexample :
    ErrExampleOne ≠ Error.nil ∧
    ∃ t, Wrap sampleRuntime Pkg.initial sampleCallStack 100 ErrExampleOne "" = Except.ok (some t) ∧
      TracedError.Error (some t) = "error: One" ∧
      TracedError.Error (some t) ≠ "" ++ ": " ++ describe ErrExampleOne :=
  ⟨by decide, ⟨100, ErrExampleOne, "", [13, 14]⟩, rfl, by decide, by decide⟩

/-- C5 amended: for every failure `e` other than nil and every message `m`,
`Error(Wrap(e, m))` is `m` followed by `": "` and the description of `e` when
`m` is not empty, and the description of `e` alone when `m` is empty. -/
theorem Wrap_error (rt : Runtime) (s : Pkg) (cs : List Nat) (addr : Nat) (e : Error) (m : String)
    (hd : 0 ≤ s.Depth) (hmax : s.Depth ≤ rt.maxSliceLen) (he : e ≠ Error.nil) :
    ∃ t, Wrap rt s cs addr e m = Except.ok (some t) ∧
      TracedError.Error (some t) = if m = "" then describe e else m ++ ": " ++ describe e := by
  refine ⟨{ addr := addr, Err := e, Message := m, stack := (cs.drop 3).take s.Depth.toNat }, ?_, ?_⟩
  · simp [Wrap, he, stack_ok rt s cs hd hmax]
  · by_cases hm : m = ""
    · subst hm
      simp [TracedError.Error, errorBody_empty]
    · simp [TracedError.Error, errorBody_nonempty, hm]

theorem Wrap_error_witness :
    (0 : Int) ≤ Pkg.initial.Depth ∧ ErrExampleOne ≠ Error.nil ∧
    ∃ t, Wrap sampleRuntime Pkg.initial sampleCallStack 100 ErrExampleOne "read" = Except.ok (some t) ∧
      TracedError.Error (some t) =
        if "read" = "" then describe ErrExampleOne else "read" ++ ": " ++ describe ErrExampleOne :=
  ⟨by decide, by decide,
    Wrap_error sampleRuntime Pkg.initial sampleCallStack 100 ErrExampleOne "read"
      (by decide) (by decide) (by decide)⟩

/-- C6 (the code departs from the claim): `New(nil)` is the nil pointer, on
which `Error` and `Trace` return the empty string but `Unwrap` dereferences
nil and panics. -/
theorem Unwrap_nil_panics :
    New sampleRuntime Pkg.initial sampleCallStack 100 Error.nil = Except.ok none ∧
    TracedError.Error none = "" ∧
    TracedError.Trace sampleRuntime none = "" ∧
    TracedError.Unwrap none = Except.error Panic.nilDereference :=
  ⟨rfl, rfl, rfl, rfl⟩

/-- C7: for every present `TracedError` `t`, `Error(t)` is the message, `": "`
and the description of `t.Err` when the message is not empty, and the
description of `t.Err` with nothing added when the message is empty. -/
theorem Error_render (t : TracedError) :
    TracedError.Error (some t) =
      if t.Message ≠ "" then t.Message ++ ": " ++ describe t.Err else describe t.Err := by
  by_cases hm : t.Message = ""
  · simp [TracedError.Error, hm, errorBody_empty]
  · simp [TracedError.Error, hm, errorBody_nonempty]

/-- C8: for every format template and argument list (the package depth being
one that `make` accepts), `Newf(format, args)` is a non-nil `*TracedError` with an empty
message whose `Error()` is the text of `fmt.Errorf(format, args...)`. -/
theorem Newf_error (rt : Runtime) (s : Pkg) (cs : List Nat) (eaddr addr : Nat)
    (format : String) (args : List Any) (hd : 0 ≤ s.Depth) (hmax : s.Depth ≤ rt.maxSliceLen) :
    ∃ t, Newf rt s cs eaddr addr format args = Except.ok (some t) ∧
      t.Message = "" ∧ TracedError.Error (some t) = rt.ErrorfText format args := by
  refine ⟨{ addr := addr, Err := Error.foreign eaddr (rt.ErrorfText format args),
            Message := "", stack := (cs.drop 3).take s.Depth.toNat }, ?_, rfl, ?_⟩
  · simp [Newf, stack_ok rt s cs hd hmax]
  · simp [TracedError.Error, errorBody_empty, describe]

theorem Newf_error_witness :
    (0 : Int) ≤ Pkg.initial.Depth ∧
    sampleRuntime.ErrorfText "value %d invalid" [Any.int 7] = "value 7 invalid" ∧
    ∃ t, Newf sampleRuntime Pkg.initial sampleCallStack 99 100 "value %d invalid" [Any.int 7]
        = Except.ok (some t) ∧
      t.Message = "" ∧
      TracedError.Error (some t) = sampleRuntime.ErrorfText "value %d invalid" [Any.int 7] :=
  ⟨by decide, by decide,
    Newf_error sampleRuntime Pkg.initial sampleCallStack 99 100 "value %d invalid" [Any.int 7]
      (by decide) (by decide)⟩

/-- C9 as stated fails for max depth 0: the snapshot is empty and `Trace`
still renders one frame (the zero frame), which is more than 0. -/
theorem Trace_frames_depth_zero_counterexample :
    ∃ t, New sampleRuntime (Init 0 Pkg.initial) sampleCallStack 100 ErrExampleOne = Except.ok (some t) ∧
      t.stack = [] ∧
      TracedError.Trace sampleRuntime (some t) = "\n\t:0\n" ∧
      (TracedError.traceChunks sampleRuntime t).length = 1 ∧
      ¬ ((TracedError.traceChunks sampleRuntime t).length : Int) ≤ (Init 0 Pkg.initial).Depth :=
  ⟨⟨100, ErrExampleOne, "", []⟩, rfl, rfl, by decide, by decide, by decide⟩

/-- C9 amended: for every configured max depth and every `TracedError`
returned by `New`, `Newf`, `Wrap` or `Wrapf`, the number of frames rendered by
`Trace` is at most the larger of the max depth and 1. -/
theorem Trace_frames_le_depth (rt : Runtime) (s : Pkg) (cs : List Nat) (addr : Nat)
    (c : Call) (t : TracedError) (h : c.run rt s cs addr = Except.ok (some t)) :
    ((TracedError.traceChunks rt t).length : Int) ≤ max s.Depth 1 := by
  have hst : stack rt s cs = Except.ok t.stack := by
    cases c with
    | New err =>
      simp only [Call.run, New] at h
      split at h
      · cases h
      · split at h
        · cases h
        · next st hs => cases h; exact hs
    | Newf eaddr format args =>
      simp only [Call.run, Newf] at h
      split at h
      · cases h
      · next st hs => cases h; exact hs
    | Wrap err msg =>
      simp only [Call.run, Wrap] at h
      split at h
      · cases h
      · split at h
        · cases h
        · next st hs => cases h; exact hs
    | Wrapf err format args =>
      simp only [Call.run, Wrapf] at h
      split at h
      · cases h
      · split at h
        · cases h
        · next st hs => cases h; exact hs
  have hlen := stack_length_le rt s cs t.stack hst
  have hd := stack_depth_nonneg rt s cs t.stack hst
  have hcount : (TracedError.traceChunks rt t).length = max t.stack.length 1 := by
    simp [TracedError.traceChunks, traceLoop_length]
  rw [hcount]
  have h1 : (t.stack.length : Int) ≤ s.Depth := by
    have := Int.toNat_of_nonneg hd
    omega
  rcases Nat.le_total t.stack.length 1 with hle | hle
  · rw [max_eq_right hle]
    exact le_max_right _ _
  · rw [max_eq_left hle]
    exact le_trans h1 (le_max_left _ _)

theorem Trace_frames_le_depth_witness :
    Call.run sampleRuntime (Init 1 Pkg.initial) sampleCallStack 100 (Call.Wrap ErrExampleOne "read")
      = Except.ok (some ⟨100, ErrExampleOne, "read", [13]⟩) ∧
    ((TracedError.traceChunks sampleRuntime ⟨100, ErrExampleOne, "read", [13]⟩).length : Int)
      ≤ max (Init 1 Pkg.initial).Depth 1 :=
  ⟨rfl, Trace_frames_le_depth sampleRuntime (Init 1 Pkg.initial) sampleCallStack 100
    (Call.Wrap ErrExampleOne "read") ⟨100, ErrExampleOne, "read", [13]⟩ rfl⟩

/-- C10 as stated fails for a negative depth: after `Init(-1)`, `New` on a
non-nil error panics in `make([]uintptr, Depth)`, and so do `Newf`, `Wrap`
and `Wrapf` whenever they reach `stack()`.  It fails in the same way for a
depth above the largest slice length, such as `Init(1 << 62)`. -/
theorem Init_negative_panics_counterexample :
    New sampleRuntime (Init (2 ^ 62) Pkg.initial) sampleCallStack 100 ErrExampleOne
      = Except.error Panic.makesliceLenOutOfRange ∧
    New sampleRuntime (Init (-1) Pkg.initial) sampleCallStack 100 ErrExampleOne
      = Except.error Panic.makesliceLenOutOfRange ∧
    Newf sampleRuntime (Init (-1) Pkg.initial) sampleCallStack 99 100 "x" []
      = Except.error Panic.makesliceLenOutOfRange ∧
    Wrap sampleRuntime (Init (-1) Pkg.initial) sampleCallStack 100 ErrExampleOne "read"
      = Except.error Panic.makesliceLenOutOfRange ∧
    Wrapf sampleRuntime (Init (-1) Pkg.initial) sampleCallStack 100 Error.nil "x" []
      = Except.error Panic.makesliceLenOutOfRange :=
  ⟨rfl, rfl, rfl, rfl, rfl⟩

/-- C10 amended: for every integer `n` given to `Init` with `0 ≤ n` and `n`
at most the largest slice length that `make` accepts, a subsequent call of
`New`, `Newf`, `Wrap` or `Wrapf` returns normally, and the snapshot of a
returned `TracedError` has at most `n` entries. -/
theorem Init_nonneg_no_panic (rt : Runtime) (s : Pkg) (n : Int) (cs : List Nat) (addr : Nat)
    (c : Call) (hn : 0 ≤ n) (hmax : n ≤ rt.maxSliceLen) :
    ∃ r, c.run rt (Init n s) cs addr = Except.ok r ∧
      ∀ t, r = some t → (t.stack.length : Int) ≤ n := by
  have hd : 0 ≤ (Init n s).Depth := hn
  have hs := stack_ok rt (Init n s) cs hd hmax
  have hlen : (((cs.drop 3).take (Init n s).Depth.toNat).length : Int) ≤ n := by
    have h1 : ((cs.drop 3).take (Init n s).Depth.toNat).length ≤ (Init n s).Depth.toNat := by
      simp [List.length_take]
    have h2 : ((Init n s).Depth.toNat : Int) = n := Int.toNat_of_nonneg hn
    omega
  cases c with
  | New err =>
    by_cases he : err = Error.nil
    · exact ⟨none, by simp [Call.run, New, he], by intro t ht; cases ht⟩
    · exact ⟨some ⟨addr, err, "", (cs.drop 3).take (Init n s).Depth.toNat⟩,
        by simp [Call.run, New, he, hs], by intro t ht; cases ht; exact hlen⟩
  | Newf eaddr format args =>
    exact ⟨some ⟨addr, Error.foreign eaddr (rt.ErrorfText format args), "",
        (cs.drop 3).take (Init n s).Depth.toNat⟩,
      by simp [Call.run, Newf, hs], by intro t ht; cases ht; exact hlen⟩
  | Wrap err msg =>
    by_cases he : err = Error.nil
    · exact ⟨none, by simp [Call.run, Wrap, he], by intro t ht; cases ht⟩
    · exact ⟨some ⟨addr, err, msg, (cs.drop 3).take (Init n s).Depth.toNat⟩,
        by simp [Call.run, Wrap, he, hs], by intro t ht; cases ht; exact hlen⟩
  | Wrapf err format args =>
    by_cases he : err = Error.nil
    · exact ⟨some ⟨addr, err, rt.Sprintf format args, (cs.drop 3).take (Init n s).Depth.toNat⟩,
        by simp [Call.run, Wrapf, he, hs], by intro t ht; cases ht; exact hlen⟩
    · exact ⟨none, by simp [Call.run, Wrapf, he], by intro t ht; cases ht⟩

theorem Init_nonneg_no_panic_witness :
    (0 : Int) ≤ 0 ∧
    ∃ r, Call.run sampleRuntime (Init 0 Pkg.initial) sampleCallStack 100 (Call.New ErrExampleOne)
        = Except.ok r ∧
      ∀ t, r = some t → (t.stack.length : Int) ≤ 0 :=
  ⟨by decide, Init_nonneg_no_panic sampleRuntime Pkg.initial 0 sampleCallStack 100
    (Call.New ErrExampleOne) (by decide) (by decide)⟩

/-- C11 as stated fails for an empty snapshot: after `Init(0)` the snapshot of
`New(e)` is empty, and `Trace` still writes one line group (the zero frame),
so its text is not the concatenation of zero line groups. -/
theorem Trace_empty_snapshot_counterexample :
    ∃ t, New sampleRuntime (Init 0 Pkg.initial) sampleCallStack 100 ErrExampleOne = Except.ok (some t) ∧
      t.stack = [] ∧
      TracedError.Trace sampleRuntime (some t) = "\n\t:0\n" ∧
      TracedError.Trace sampleRuntime (some t)
        ≠ String.join (t.stack.map fun pc => (sampleRuntime.funcInfo pc).render) ∧
      (TracedError.traceChunks sampleRuntime t).length ≠ t.stack.length :=
  ⟨⟨100, ErrExampleOne, "", []⟩, rfl, rfl, by decide, by decide, by decide⟩

/-- C11 amended: for every present `TracedError` with a non-empty snapshot,
`Trace()` is the concatenation, in captured order, of exactly one line group
`"<function>\n\t<file>:<line>\n"` per entry of the snapshot, with nothing else
added; for an empty snapshot it is the single line group of the zero frame. -/
theorem Trace_concat (rt : Runtime) (t : TracedError) :
    TracedError.traceChunks rt t =
      (if t.stack = [] then [Frame.zero.render]
       else t.stack.map fun pc =>
         (rt.funcInfo pc).Function ++ "\n\t" ++ (rt.funcInfo pc).File ++ ":" ++
           toString (rt.funcInfo pc).Line ++ "\n") ∧
    TracedError.Trace rt (some t) =
      (if t.stack = [] then Frame.zero.render
       else String.join (t.stack.map fun pc =>
         (rt.funcInfo pc).Function ++ "\n\t" ++ (rt.funcInfo pc).File ++ ":" ++
           toString (rt.funcInfo pc).Line ++ "\n")) := by
  cases hst : t.stack with
  | nil =>
    simp [TracedError.Trace, TracedError.traceChunks, hst, Trace.loop, Builder.write,
      Builder.String, join_singleton]
  | cons pc rest =>
    have hc := traceLoop_cons rt rest pc []
    simp only [List.nil_append] at hc
    simp only [TracedError.Trace, TracedError.traceChunks, hst, hc, Builder.String]
    simp [Frame.render]

/-- C12: for every present `TracedError`, whatever its snapshot (an empty one
included), `Trace()` is a non-empty string, at least one frame is rendered,
and the text starts with the line group of a frame. -/
theorem Trace_nonempty (rt : Runtime) (t : TracedError) :
    TracedError.Trace rt (some t) ≠ "" ∧
    1 ≤ (TracedError.traceChunks rt t).length ∧
    ∃ f rest, TracedError.Trace rt (some t) = Frame.render f ++ rest := by
  have hex : ∃ f rest, TracedError.Trace rt (some t) = Frame.render f ++ rest := by
    cases hst : t.stack with
    | nil =>
      refine ⟨Frame.zero, "", ?_⟩
      simp [TracedError.Trace, TracedError.traceChunks, hst, Trace.loop, Builder.write,
        Builder.String, join_singleton]
    | cons pc rest =>
      have hc := traceLoop_cons rt rest pc []
      simp only [List.nil_append, List.map_cons] at hc
      refine ⟨rt.funcInfo pc, String.join (rest.map fun q => (rt.funcInfo q).render), ?_⟩
      simp only [TracedError.Trace, TracedError.traceChunks, hst, hc, Builder.String, join_cons]
  refine ⟨?_, ?_, hex⟩
  · obtain ⟨f, rest, h⟩ := hex
    intro hempty
    rw [hempty] at h
    have hl := congrArg String.length h
    have hr : 0 < (Frame.render f).length := by
      rcases Nat.eq_zero_or_pos (Frame.render f).length with h0 | hpos
      · exact absurd (String.ext (List.length_eq_zero.mp h0)) (render_ne_empty f)
      · exact hpos
    have h0 : "".length = 0 := by decide
    rw [String.length_append] at hl
    omega
  · simp [TracedError.traceChunks, traceLoop_length]

/-- C13: on the nil `*TracedError`, `Error()` returns the empty string and
`Trace()` returns the empty string. -/
theorem Error_Trace_nil (rt : Runtime) :
    TracedError.Error none = "" ∧ TracedError.Trace rt none = "" :=
  ⟨rfl, rfl⟩

/-- C14: for every failure `e` other than nil (the package depth being one
that `make` accepts), `New(e)` carries an empty message and `Error(New(e))` is the
description of `e`, unchanged. -/
theorem New_error_description (rt : Runtime) (s : Pkg) (cs : List Nat) (addr : Nat) (e : Error)
    (hd : 0 ≤ s.Depth) (hmax : s.Depth ≤ rt.maxSliceLen) (he : e ≠ Error.nil) :
    ∃ t, New rt s cs addr e = Except.ok (some t) ∧ t.Message = "" ∧
      TracedError.Error (some t) = describe e := by
  refine ⟨{ addr := addr, Err := e, Message := "", stack := (cs.drop 3).take s.Depth.toNat },
    ?_, rfl, ?_⟩
  · simp [New, he, stack_ok rt s cs hd hmax]
  · simp [TracedError.Error, errorBody_empty]

theorem New_error_description_witness :
    (0 : Int) ≤ Pkg.initial.Depth ∧ ErrExampleOne ≠ Error.nil ∧
    describe ErrExampleOne = "error: One" ∧
    ∃ t, New sampleRuntime Pkg.initial sampleCallStack 100 ErrExampleOne = Except.ok (some t) ∧
      t.Message = "" ∧ TracedError.Error (some t) = describe ErrExampleOne :=
  ⟨by decide, by decide, by decide,
    New_error_description sampleRuntime Pkg.initial sampleCallStack 100 ErrExampleOne
      (by decide) (by decide) (by decide)⟩

/-- C15: the snapshot is bounded by the configured max depth.  With the
default setting every `TracedError` returned by a constructor has at most 32
snapshot entries, and after `Init(n)` with `n ≥ 0` every `TracedError`
returned by `New`, `Newf`, `Wrap` or `Wrapf` has at most `n` snapshot
entries. -/
theorem snapshot_bounded_by_depth (rt : Runtime) (s : Pkg) (n : Int) (cs : List Nat)
    (addr : Nat) (c : Call) (t : TracedError) :
    (c.run rt Pkg.initial cs addr = Except.ok (some t) → t.stack.length ≤ 32) ∧
    (0 ≤ n → c.run rt (Init n s) cs addr = Except.ok (some t) →
      (t.stack.length : Int) ≤ n) := by
  constructor
  · intro h
    have hst := Call_run_stack rt Pkg.initial cs addr c t h
    have hlen := stack_length_le rt Pkg.initial cs t.stack hst
    have h32 : Pkg.initial.Depth.toNat = 32 := rfl
    omega
  · intro hn h
    have hst := Call_run_stack rt (Init n s) cs addr c t h
    have hlen := stack_length_le rt (Init n s) cs t.stack hst
    have hnat : (((Init n s).Depth.toNat : Nat) : Int) = n := Int.toNat_of_nonneg hn
    omega

theorem snapshot_bounded_by_depth_witness :
    Call.run sampleRuntime Pkg.initial deepCallStack 100 (Call.New ErrExampleOne)
      = Except.ok (some ⟨100, ErrExampleOne, "", (List.range 35).drop 3⟩) ∧
    ((List.range 35).drop 3).length ≤ 32 ∧
    Call.run sampleRuntime (Init 2 Pkg.initial) deepCallStack 100 (Call.Wrap ErrExampleOne "read")
      = Except.ok (some ⟨100, ErrExampleOne, "read", [3, 4]⟩) ∧
    (([3, 4] : List Nat).length : Int) ≤ 2 :=
  ⟨rfl,
    (snapshot_bounded_by_depth sampleRuntime Pkg.initial 0 deepCallStack 100
      (Call.New ErrExampleOne) ⟨100, ErrExampleOne, "", (List.range 35).drop 3⟩).1 rfl,
    rfl,
    (snapshot_bounded_by_depth sampleRuntime Pkg.initial 2 deepCallStack 100
      (Call.Wrap ErrExampleOne "read") ⟨100, ErrExampleOne, "read", [3, 4]⟩).2 (by decide) rfl⟩

/-- C16: for every failure `e` other than nil and every message `m` (the
package depth being one that `make` accepts), `Wrap(e, m)` is a non-nil `*TracedError`
whose message is exactly `m` and whose `Unwrap` returns exactly `e`. -/
theorem Wrap_message_unwrap (rt : Runtime) (s : Pkg) (cs : List Nat) (addr : Nat) (e : Error) (m : String)
    (hd : 0 ≤ s.Depth) (hmax : s.Depth ≤ rt.maxSliceLen) (he : e ≠ Error.nil) :
    ∃ t, Wrap rt s cs addr e m = Except.ok (some t) ∧ t.Message = m ∧
      TracedError.Unwrap (some t) = Except.ok e := by
  refine ⟨{ addr := addr, Err := e, Message := m, stack := (cs.drop 3).take s.Depth.toNat },
    ?_, rfl, rfl⟩
  simp [Wrap, he, stack_ok rt s cs hd hmax]

theorem Wrap_message_unwrap_witness :
    (0 : Int) ≤ Pkg.initial.Depth ∧ ErrExampleOne ≠ Error.nil ∧
    ∃ t, Wrap sampleRuntime Pkg.initial sampleCallStack 100 ErrExampleOne "read config" = Except.ok (some t) ∧
      t.Message = "read config" ∧ TracedError.Unwrap (some t) = Except.ok ErrExampleOne :=
  ⟨by decide, by decide,
    Wrap_message_unwrap sampleRuntime Pkg.initial sampleCallStack 100 ErrExampleOne
      "read config" (by decide) (by decide) (by decide)⟩

/-- C17: the behaviour of `Wrapf` as written.  For every failure `e` other
than nil, `Wrapf(e, format, args)` is the nil pointer; and (the package depth
being non-negative and at most the largest slice length that `make` accepts)
`Wrapf(nil, format, args)` is a non-nil `*TracedError` whose `Err` field is
nil and whose message is the formatted text. -/
theorem Wrapf_reference_behaviour (rt : Runtime) (s : Pkg) (cs : List Nat) (addr : Nat)
    (e : Error) (format : String) (args : List Any) :
    (e ≠ Error.nil → Wrapf rt s cs addr e format args = Except.ok none) ∧
    (0 ≤ s.Depth → s.Depth ≤ rt.maxSliceLen →
      ∃ t, Wrapf rt s cs addr Error.nil format args = Except.ok (some t) ∧
        t.Err = Error.nil ∧ t.Message = rt.Sprintf format args) := by
  constructor
  · intro he
    simp [Wrapf, he]
  · intro hd hmax
    refine ⟨{ addr := addr, Err := Error.nil, Message := rt.Sprintf format args,
              stack := (cs.drop 3).take s.Depth.toNat }, ?_, rfl, rfl⟩
    simp [Wrapf, stack_ok rt s cs hd hmax]

theorem Wrapf_reference_behaviour_witness :
    sampleRuntime.Sprintf "ctx %d" [Any.int 1] = "ctx 1" ∧
    (ErrExampleOne ≠ Error.nil →
      Wrapf sampleRuntime Pkg.initial sampleCallStack 100 ErrExampleOne "ctx %d" [Any.int 1]
        = Except.ok none) ∧
    ((0 : Int) ≤ Pkg.initial.Depth → Pkg.initial.Depth ≤ (sampleRuntime.maxSliceLen : Int) →
      ∃ t, Wrapf sampleRuntime Pkg.initial sampleCallStack 100 Error.nil "ctx %d" [Any.int 1]
          = Except.ok (some t) ∧
        t.Err = Error.nil ∧ t.Message = sampleRuntime.Sprintf "ctx %d" [Any.int 1]) :=
  ⟨by decide,
    Wrapf_reference_behaviour sampleRuntime Pkg.initial sampleCallStack 100 ErrExampleOne
      "ctx %d" [Any.int 1]⟩

/-- C18: message chains nest.  For every failure `e` other than nil and every
list of non-empty messages applied by successive `Wrap` calls, innermost
first (the package depth being one that `make` accepts), the calls return normally and
`Error()` of the outermost wrapper is the outermost message, `": "`, and so on
down to the innermost message, `": "` and the description of `e`. -/
theorem Wrap_chain_error (rt : Runtime) (s : Pkg) (e : Error) (calls : List (String × List Nat × Nat))
    (hd : 0 ≤ s.Depth) (hmax : s.Depth ≤ rt.maxSliceLen) (he : e ≠ Error.nil) (hm : ∀ c ∈ calls, c.1 ≠ "") :
    ∃ x, nest rt s (wrapLayers calls) e = Except.ok x ∧
      describe x = chainText (calls.map fun c => c.1) (describe e) ∧
      (calls ≠ [] → ∃ t, x = toError (some t) ∧
        TracedError.Error (some t) = chainText (calls.map fun c => c.1) (describe e)) := by
  obtain ⟨x, hx, _, hxd, hxt⟩ := nest_wrapLayers rt s hd hmax calls e he hm
  refine ⟨x, hx, hxd, ?_⟩
  intro hne
  obtain ⟨t, ht⟩ := hxt hne
  refine ⟨t, ht, ?_⟩
  rw [← describe_toError, ← ht, hxd]

theorem Wrap_chain_error_witness :
    chainText ["read", "load"] (describe ErrExampleOne) = "load: read: error: One" ∧
    ∃ x, nest sampleRuntime Pkg.initial
        (wrapLayers [("read", sampleCallStack, 101), ("load", sampleCallStack, 102)])
        ErrExampleOne = Except.ok x ∧
      describe x = chainText
        ([("read", sampleCallStack, 101), ("load", sampleCallStack, 102)].map fun c => c.1)
        (describe ErrExampleOne) ∧
      ([("read", sampleCallStack, 101), ("load", sampleCallStack, 102)] ≠ [] →
        ∃ t, x = toError (some t) ∧
          TracedError.Error (some t) = chainText
            ([("read", sampleCallStack, 101), ("load", sampleCallStack, 102)].map fun c => c.1)
            (describe ErrExampleOne)) :=
  ⟨by decide,
    Wrap_chain_error sampleRuntime Pkg.initial ErrExampleOne
      [("read", sampleCallStack, 101), ("load", sampleCallStack, 102)]
      (by decide) (by decide) (by decide) (by decide)⟩

end Terror
